import Mathlib

/-!
# Verification of the pwd-manager biometric envelope-encryption pipeline

Shallow embedding of the encryption utilities, image-decryption utilities,
descriptor matcher and model-loading lifecycle of the `pwd-manager`
repository, with theorems settling the specification claims.

The external `crypto-js` library (AES passphrase encryption, PBKDF2) is
modelled symbolically: a ciphertext is an opaque value recording the
plaintext and the (strengthened) key under which it was produced, and
decryption with any other key fails — the ideal-cipher reading of the
library's contract.  Everything else is translated directly from the
repository's TypeScript sources.
-/

namespace PwdManager

/-- Model of a JavaScript string in ciphertext position: either an ordinary
string (e.g. the empty string returned by `encrypt` on empty input, or a
legacy raw payload that is not an AES blob), or an opaque AES ciphertext,
symbolically recording the plaintext `msg` and the key string `key` that
`crypto-js` `AES.encrypt(msg, key)` was called with. -/
inductive CipherString where
  | plain (s : String)
  | blob (msg key : String)
deriving DecidableEq, Repr

/-- `strengthenKey` from `src/utils/cryptoUtils.ts`:
`PBKDF2(baseKey, SALT, { keySize: 256/32, iterations: 10000 }).toString()`.
PBKDF2 is modelled as an (injective, deterministic) tagged pairing of the
salt and the base key; the iteration count and key size are fixed
constants in the source and do not affect the input/output relation. -/
def strengthenKey (salt baseKey : String) : String :=
  "PBKDF2:" ++ salt ++ ":" ++ baseKey

/-- Model of `AES.decrypt(ct, key).toString(Utf8)` from `crypto-js`:
returns the plaintext when `ct` is a blob produced under exactly `key`;
`none` models the failure modes on any other input (a thrown error, or
garbage/empty output that the callers uniformly treat as failure). -/
def aesDecryptUtf8 (ct : CipherString) (key : String) : Option String :=
  match ct with
  | .plain _ => none
  | .blob msg k => if k = key then some msg else none

/-- `encrypt` from `src/utils/cryptoUtils.ts` (frontend; the backend copy in
`docs/ENCRYPTION.md` is identical):
`if (!value) return ""; return AES.encrypt(value, strengthenKey(secretKey)).toString()`. -/
def encrypt (salt : String) (value : String) (secretKey : String) : CipherString :=
  if value = "" then .plain "" else .blob value (strengthenKey salt secretKey)

/-- `decrypt` from `src/utils/cryptoUtils.ts` (frontend).  The result pairs
the returned string with whether the `catch` branch ran (it shows the
error toast and returns `""`); the empty-input guard returns `""` without
signalling.  The function is total: no exception escapes. -/
def decrypt (salt : String) (encryptedValue : CipherString) (secretKey : String) :
    String × Bool :=
  if encryptedValue = .plain "" then ("", false)
  else
    match aesDecryptUtf8 encryptedValue (strengthenKey salt secretKey) with
    | some s => (s, false)
    | none => ("", true)

/-- Backend `decrypt` from `docs/ENCRYPTION.md` (backend `cryptoUtils.ts`):
same control flow, but both the empty-result check and the `catch` branch
just return `""` (with a console log); no exception escapes. -/
def decryptBackend (salt : String) (encryptedValue : CipherString) (secretKey : String) :
    String :=
  if encryptedValue = .plain "" then ""
  else
    match aesDecryptUtf8 encryptedValue (strengthenKey salt secretKey) with
    | some s => s
    | none => ""

theorem strengthenKey_injective (salt : String) {k1 k2 : String}
    (h : strengthenKey salt k1 = strengthenKey salt k2) : k1 = k2 := by
  unfold strengthenKey at h
  have hd := congrArg String.data h
  simp only [String.data_append] at hd
  exact String.ext (List.append_cancel_left hd)

/-- `getUserEncryptionKey` from `src/utils/cryptoUtils.ts`:
builds the user-specific base key
`` `pwd-manager-${userId}-${userEmail}-${appSecretKey}` ``.
The application secret comes from the environment and is passed explicitly
here; the user id is a positive integer, rendered in decimal by the JS
template string, modelled by `Nat.repr`. -/
def getUserEncryptionKey (secret : String) (userId : Nat) (userEmail : String) : String :=
  "pwd-manager-" ++ Nat.repr userId ++ "-" ++ userEmail ++ "-" ++ secret

/-- The temporary (pre-registration) base key
`` `pwd-manager-temp-${email}-${APP_SECRET_KEY}` `` used by
`decryptSelfieImage` and as the authentication fallback in
`decryptUserSelfieImage` (`src/utils/imageDecryptionUtils.ts`). -/
def tempEncryptionKey (secret email : String) : String :=
  "pwd-manager-temp-" ++ email ++ "-" ++ secret

/-- The JSON envelope produced by `createEncryptedImageFormData`
(`src/utils/imageEncryptionUtils.ts`): ciphertext plus optional metadata
fields.  Fields other than `data` are never read by the decryptors. -/
structure Envelope where
  data : CipherString
  contentType : Option String
  encryptedAt : Option String
  version : Option String
deriving DecidableEq, Repr

/-- The buffer received by the backend decryptors: either its UTF-8 text
parses as a JSON envelope (`structured`), or `JSON.parse` throws and the
whole buffer is the raw ciphertext string (`bare`). -/
inductive Wire where
  | structured (e : Envelope)
  | bare (raw : CipherString)
deriving DecidableEq, Repr

/-- The `try { JSON.parse } catch { encryptedInfo = { data: raw } }` step
shared by `decryptSelfieImage` and `decryptUserSelfieImage`. -/
def parseEncryptedInfo : Wire → Envelope
  | .structured e => e
  | .bare raw => { data := raw, contentType := none, encryptedAt := none, version := none }

/-- `decryptSelfieImage` from `src/utils/imageDecryptionUtils.ts`
(reproduced in `docs/ENCRYPTION.md`): parse (with the bare-ciphertext
fallback), decrypt `encryptedInfo.data` under the temporary key, throw if
the result is empty.  The outer `try/catch` maps every failure to
`Error("Failed to decrypt selfie image")`.  The final
`Buffer.from(decryptedBase64, "base64")` step is a total re-encoding and
is modelled by returning the decrypted base64 payload itself. -/
def decryptSelfieImage (salt secret : String) (encryptedData : Wire) (email : String) :
    Except String String :=
  let tempKey := tempEncryptionKey secret email
  let info := parseEncryptedInfo encryptedData
  let decryptedBase64 := decryptBackend salt info.data tempKey
  if decryptedBase64 = "" then .error "Failed to decrypt selfie image"
  else .ok decryptedBase64

/-- `decryptUserSelfieImage` from `src/utils/imageDecryptionUtils.ts`:
try the user-specific key first; on failure (empty result, since the
backend `decrypt` never throws) fall back to the temporary key; if both
fail the outer `try/catch` yields
`Error("Failed to decrypt user selfie image")`. -/
def decryptUserSelfieImage (salt secret : String) (encryptedData : Wire)
    (userId : Nat) (email : String) : Except String String :=
  let encryptionKey := getUserEncryptionKey secret userId email
  let info := parseEncryptedInfo encryptedData
  let d1 := decryptBackend salt info.data encryptionKey
  if d1 ≠ "" then .ok d1
  else
    let tempKey := tempEncryptionKey secret email
    let d2 := decryptBackend salt info.data tempKey
    if d2 ≠ "" then .ok d2
    else .error "Failed to decrypt user selfie image"

/-- Modelled from the spec: `resolveCandidates` for the authentication
phase — the ordered candidate list `[userSpecificKey, temporaryKey]`
(`KeyCandidateResolver`, spec §4.3).  Used to state the refinement claim
that the source's nested try/catch implements exactly this list. -/
def resolveCandidatesAuth (secret : String) (userId : Nat) (email : String) : List String :=
  [getUserEncryptionKey secret userId email, tempEncryptionKey secret email]

/-- Modelled from the spec: the `DecryptionOrchestrator` (spec §4.4) —
try each candidate base key in order against the ciphertext, stop at the
first success, terminal failure when all candidates are exhausted. -/
def tryCandidates (salt : String) (ct : CipherString) : List String → Except String String
  | [] => .error "Failed to decrypt user selfie image"
  | k :: ks =>
    let d := decryptBackend salt ct k
    if d ≠ "" then .ok d else tryCandidates salt ct ks

/-! ### Decimal renderings consist of digit characters -/

theorem digitChar_lt_ten_ne_t {m : Nat} (h : m < 10) : Nat.digitChar m ≠ 't' := by
  revert h
  revert m
  decide

theorem toDigitsCore_ne_t :
    ∀ (f n : Nat) (ds : List Char), (∀ c ∈ ds, c ≠ 't') →
      ∀ c ∈ Nat.toDigitsCore 10 f n ds, c ≠ 't' := by
  intro f
  induction f with
  | zero =>
    intro n ds hds c hc
    exact hds c hc
  | succ f ih =>
    intro n ds hds c hc
    have hdig : Nat.digitChar (n % 10) ≠ 't' :=
      digitChar_lt_ten_ne_t (Nat.mod_lt _ (by decide))
    have hcons : ∀ x ∈ Nat.digitChar (n % 10) :: ds, x ≠ 't' := by
      intro x hx
      rcases List.mem_cons.mp hx with h | h
      · simpa [h] using hdig
      · exact hds x h
    simp only [Nat.toDigitsCore] at hc
    by_cases hdiv : n / 10 = 0
    · rw [if_pos hdiv] at hc
      exact hcons c hc
    · rw [if_neg hdiv] at hc
      exact ih (n / 10) (Nat.digitChar (n % 10) :: ds) hcons c hc

theorem natRepr_ne_temp (n : Nat) : Nat.repr n ≠ "temp" := by
  intro h
  have hdata : (Nat.repr n).data = ['t', 'e', 'm', 'p'] := by rw [h]
  have hmem : 't' ∈ (Nat.repr n).data := by rw [hdata]; simp
  have : 't' ∈ Nat.toDigitsCore 10 (n + 1) n [] := by
    simpa [Nat.repr, Nat.toDigits, List.asString] using hmem
  exact toDigitsCore_ne_t (n + 1) n [] (by simp) 't' this rfl

/-- The two authentication-phase base keys never coincide. -/
theorem userKey_ne_tempKey (secret : String) (userId : Nat) (email : String) :
    getUserEncryptionKey secret userId email ≠ tempEncryptionKey secret email := by
  intro h
  unfold getUserEncryptionKey tempEncryptionKey at h
  have hd := congrArg String.data h
  simp only [String.data_append] at hd
  simp at hd
  have h2 : (Nat.repr userId).data ++ ('-' :: (email.data ++ '-' :: secret.data)) =
      ['t', 'e', 'm', 'p'] ++ ('-' :: (email.data ++ '-' :: secret.data)) := hd
  exact natRepr_ne_temp userId (String.ext (List.append_cancel_right h2))

/-! ### Descriptor matching

`authenticateWithFace` (`src/services/user.service.ts`) compares the
stored descriptor with the freshly extracted one via
`faceapi.euclideanDistance` and rejects when
`distance > faceConfig.faceMatchThreshold`.  Descriptor entries are
modelled as rationals; the runtime's `Math.sqrt` is an external primitive
and is passed in as a parameter `sq` (the theorems assume only `sq 0 = 0`
where needed). -/

/-- The fold `desc1.map((v, i) => v - desc2[i]).reduce((r, d) => r + d^2, 0)`
inside `face-api.js`'s `euclideanDistance` (only reached on equal-length
inputs). -/
def sumSqDiff (a b : List ℚ) : ℚ :=
  (List.zipWith (fun x y => (x - y) ^ 2) a b).sum

/-- `face-api.js` `euclideanDistance`: throws
`Error('euclideanDistance: arr.length must be equal')` on a length
mismatch, otherwise returns the square root of the summed squared
differences. -/
def euclideanDistance (sq : ℚ → ℚ) (a b : List ℚ) : Except String ℚ :=
  if a.length ≠ b.length then .error "euclideanDistance: arr.length must be equal"
  else .ok (sq (sumSqDiff a b))

/-- The spec's `MatchDecision` record: distance, threshold, boolean match. -/
structure MatchDecision where
  distance : ℚ
  threshold : ℚ
  isMatch : Bool
deriving DecidableEq, Repr

/-- The comparison step of `authenticateWithFace`
(`src/services/user.service.ts` lines 188–197): compute the Euclidean
distance, then `if (distance > faceConfig.faceMatchThreshold) throw
ServiceError.validationFailed(...)` — i.e. `isMatch = false` — else
proceed to accept (`isMatch = true`).  A throw from `euclideanDistance`
itself propagates as a distinct error (`.error`), not as a decision. -/
def compareDescriptors (sq : ℚ → ℚ) (stored probe : List ℚ) (threshold : ℚ) :
    Except String MatchDecision :=
  match euclideanDistance sq stored probe with
  | .error e => .error e
  | .ok distance => .ok ⟨distance, threshold, !decide (distance > threshold)⟩

/-! ### Model-loading lifecycle

`loadModelsOnce` (`src/services/user.service.ts` lines 61–90) guards the
load with two module-level variables, `modelsLoaded : boolean` and
`modelsLoadingPromise : Promise | null`.  Its synchronous prologue — the
two guard checks and the assignment of the new promise — runs atomically
under JavaScript's run-to-completion semantics (there is no `await`
before the assignment), so concurrent calls are modelled as an arbitrary
interleaving of atomic `call` steps and promise-settlement events. -/

/-- The module-level state of `user.service.ts`, plus bookkeeping:
`nextId` names promises, `startedLoads` counts how many underlying load
operations have begun, and `rejected` records whether the (unique, never
reassigned after creation) loading promise has rejected. -/
structure LoaderState where
  modelsLoaded : Bool
  modelsLoadingPromise : Option Nat
  nextId : Nat
  startedLoads : Nat
  rejected : Bool
deriving DecidableEq, Repr

/-- The initial module state: `modelsLoaded = false`,
`modelsLoadingPromise = null`. -/
def initLoaderState : LoaderState :=
  { modelsLoaded := false, modelsLoadingPromise := none, nextId := 0,
    startedLoads := 0, rejected := false }

/-- One `loadModelsOnce()` invocation (its atomic synchronous prologue).
Returns the updated state and the promise the caller awaits
(`none` models the immediate `return` when `modelsLoaded` is true).
Translated guard by guard from the source: `if (modelsLoaded) return;`,
`if (modelsLoadingPromise) return modelsLoadingPromise;`, then
`modelsLoadingPromise = (async () => { ... })(); return modelsLoadingPromise;`
which starts a new underlying load. -/
def loadModelsOnceStep (s : LoaderState) : LoaderState × Option Nat :=
  if s.modelsLoaded then (s, none)
  else
    match s.modelsLoadingPromise with
    | some p => (s, some p)
    | none =>
      ({ modelsLoaded := s.modelsLoaded, modelsLoadingPromise := some s.nextId,
         nextId := s.nextId + 1, startedLoads := s.startedLoads + 1,
         rejected := s.rejected }, some s.nextId)

/-- Events visible to the module state: a `loadModelsOnce` call, the async
load body completing successfully (`modelsLoaded = true;`), or the load
rejecting.  On rejection the source performs no state update at all: no
`catch`/`finally` clears `modelsLoadingPromise` or resets anything, so
only the promise's own status changes. -/
inductive LoaderEvent where
  | call
  | settleOk
  | settleFail
deriving DecidableEq, Repr

/-- Apply one event; the second component is the awaited promise for a
`call` event. -/
def loaderStep (s : LoaderState) : LoaderEvent → LoaderState × Option (Option Nat)
  | .call =>
    let r := loadModelsOnceStep s
    (r.1, some r.2)
  | .settleOk => ({ s with modelsLoaded := true }, none)
  | .settleFail => ({ s with rejected := true }, none)

/-- Run a list of events, collecting each `call`'s awaited promise in
order. -/
def runEvents (s : LoaderState) : List LoaderEvent → LoaderState × List (Option Nat)
  | [] => (s, [])
  | e :: es =>
    let r := loaderStep s e
    let rest := runEvents r.1 es
    match r.2 with
    | some v => (rest.1, v :: rest.2)
    | none => (rest.1, rest.2)

/-! ### Helper lemmas -/

theorem decryptBackend_encrypt_same (salt P K : String) (hP : P ≠ "") :
    decryptBackend salt (encrypt salt P K) K = P := by
  simp [encrypt, decryptBackend, aesDecryptUtf8, hP]

theorem decryptBackend_encrypt_other (salt P K1 K2 : String) (hK : K1 ≠ K2) :
    decryptBackend salt (encrypt salt P K1) K2 = "" := by
  by_cases hP : P = ""
  · simp [encrypt, decryptBackend, hP]
  · have hk : strengthenKey salt K1 ≠ strengthenKey salt K2 := fun hc =>
      hK (strengthenKey_injective salt hc)
    simp [encrypt, decryptBackend, aesDecryptUtf8, hP, hk]

theorem sumSqDiff_self (v : List ℚ) : sumSqDiff v v = 0 := by
  simp [sumSqDiff]

theorem runEvents_calls_inflight (s : LoaderState) (p : Nat)
    (h1 : s.modelsLoaded = false) (h2 : s.modelsLoadingPromise = some p) :
    ∀ m, runEvents s (List.replicate m .call) = (s, List.replicate m (some p)) := by
  intro m
  have hstep : loadModelsOnceStep s = (s, some p) := by
    unfold loadModelsOnceStep
    rw [h1, h2]
    simp
  induction m with
  | zero => simp [runEvents]
  | succ m ih =>
    simp [List.replicate_succ, runEvents, loaderStep, hstep, ih]

end PwdManager

namespace PwdManager

/-- Claim C2: encrypt-then-decrypt round-trip — for every plaintext string
`P` and key string `K`, decrypting `encrypt P K` with the same key `K`
returns exactly `P` (the value component of the frontend `decrypt`). -/
theorem claim_C2_roundtrip (salt P K : String) :
    (decrypt salt (encrypt salt P K) K).1 = P := by
  by_cases hP : P = ""
  · subst hP
    simp [encrypt, decrypt]
  · simp [encrypt, decrypt, hP, aesDecryptUtf8]

/-- Claim C5: wrong-key decryption fails in a typed way — for distinct keys
`K1 ≠ K2`, decrypting `encrypt P K1` with `K2` returns the failure value
`""` (never a plausible non-empty plaintext), and whenever real ciphertext
was present (`P ≠ ""`) the error branch is signalled (the toast flag).
The model is a total function, so no exception escapes. -/
theorem claim_C5_wrong_key_typed_failure (salt P K1 K2 : String) (hK : K1 ≠ K2) :
    (decrypt salt (encrypt salt P K1) K2).1 = "" ∧
      (P ≠ "" → (decrypt salt (encrypt salt P K1) K2).2 = true) := by
  by_cases hP : P = ""
  · subst hP
    simp [encrypt, decrypt]
  · have hk : strengthenKey salt K1 ≠ strengthenKey salt K2 := fun hc =>
      hK (strengthenKey_injective salt hc)
    simp [encrypt, decrypt, hP, aesDecryptUtf8, hk]

theorem claim_C5_wrong_key_typed_failure_witness :
    ("kA" : String) ≠ "kB" ∧
      ((decrypt "s" (encrypt "s" "hello" "kA") "kB").1 = "" ∧
        (("hello" : String) ≠ "" → (decrypt "s" (encrypt "s" "hello" "kA") "kB").2 = true)) :=
  ⟨by decide, claim_C5_wrong_key_typed_failure "s" "hello" "kA" "kB" (by decide)⟩

/-- Claim C10: the two authentication-phase base keys never collide — for
every numeric user id and email, the user-specific key string differs
from the temporary key string built from the same email and application
secret, because the decimal rendering of a number is never `"temp"`. -/
theorem claim_C10_keys_never_collide (secret : String) (userId : Nat) (email : String) :
    getUserEncryptionKey secret userId email ≠ tempEncryptionKey secret email :=
  userKey_ne_tempKey secret userId email

/-- Claim C1: authentication-phase decryption tries exactly the two
candidate base keys `[userSpecificKey, temporaryKey]` in that order and
stops at the first success — `decryptUserSelfieImage` coincides with the
orchestrator `tryCandidates` run over `resolveCandidatesAuth` — and an
envelope encrypted under the temporary key is accepted via the fallback. -/
theorem claim_C1_candidate_order (salt secret : String) (w : Wire)
    (userId : Nat) (email P : String) (hP : P ≠ "") :
    decryptUserSelfieImage salt secret w userId email =
      tryCandidates salt (parseEncryptedInfo w).data
        (resolveCandidatesAuth secret userId email) ∧
      decryptUserSelfieImage salt secret
        (.bare (encrypt salt P (tempEncryptionKey secret email))) userId email = .ok P := by
  constructor
  · rfl
  · have hne : tempEncryptionKey secret email ≠ getUserEncryptionKey secret userId email :=
      fun hc => userKey_ne_tempKey secret userId email hc.symm
    have h1 := decryptBackend_encrypt_other salt P (tempEncryptionKey secret email)
      (getUserEncryptionKey secret userId email) hne
    have h2 := decryptBackend_encrypt_same salt P (tempEncryptionKey secret email) hP
    simp [decryptUserSelfieImage, parseEncryptedInfo, h1, h2, hP]

theorem claim_C1_candidate_order_witness :
    ("IMGDATA" : String) ≠ "" ∧
      (decryptUserSelfieImage "s" "sec" (.bare (.plain "x")) 7 "a@b.com" =
        tryCandidates "s" (parseEncryptedInfo (.bare (.plain "x"))).data
          (resolveCandidatesAuth "sec" 7 "a@b.com") ∧
        decryptUserSelfieImage "s" "sec"
          (.bare (encrypt "s" "IMGDATA" (tempEncryptionKey "sec" "a@b.com"))) 7 "a@b.com" =
          .ok "IMGDATA") :=
  ⟨by decide, claim_C1_candidate_order "s" "sec" (.bare (.plain "x")) 7 "a@b.com" "IMGDATA"
    (by decide)⟩

/-- Claim C3 counterexample: an envelope whose `version` field is not the
recognized format version (`"1.0"` is the only version the codec ever
emits) is NOT rejected — `decryptSelfieImage` decrypts it exactly as if
the version were known, at this explicit concrete input. -/
theorem claim_C3_counterexample :
    (some "unrecognized-version-999" : Option String) ≠ some "1.0" ∧
      decryptSelfieImage "salt0" "sec0"
        (.structured
          { data := encrypt "salt0" "IMG" (tempEncryptionKey "sec0" "a@b.com"),
            contentType := some "image/jpeg",
            encryptedAt := some "2025-01-01T00:00:00Z",
            version := some "unrecognized-version-999" })
        "a@b.com" = .ok "IMG" := by
  constructor
  · decide
  · rfl

/-- Claim C3 (amended): the decoders never inspect the `version` field —
replacing it by any other value (recognized or not) leaves the result of
`decryptSelfieImage` and `decryptUserSelfieImage` unchanged, so an
unrecognized version is not rejected; decryption proceeds on the `data`
field regardless. -/
theorem claim_C3_version_ignored (salt secret : String) (d : CipherString)
    (ct ea v v' : Option String) (email : String) (userId : Nat) :
    decryptSelfieImage salt secret
        (.structured { data := d, contentType := ct, encryptedAt := ea, version := v })
        email =
      decryptSelfieImage salt secret
        (.structured { data := d, contentType := ct, encryptedAt := ea, version := v' })
        email ∧
      decryptUserSelfieImage salt secret
        (.structured { data := d, contentType := ct, encryptedAt := ea, version := v })
        userId email =
      decryptUserSelfieImage salt secret
        (.structured { data := d, contentType := ct, encryptedAt := ea, version := v' })
        userId email :=
  ⟨rfl, rfl⟩

/-- Claim C8: legacy bare-ciphertext inputs are accepted — a buffer that
does not parse as JSON is treated exactly as the envelope
`{ data := raw }` and is decrypted rather than rejected; in particular a
bare temporary-key ciphertext decrypts successfully. -/
theorem claim_C8_bare_ciphertext_accepted (salt secret : String) (raw : CipherString)
    (email P : String) (hP : P ≠ "") :
    parseEncryptedInfo (.bare raw) =
      { data := raw, contentType := none, encryptedAt := none, version := none } ∧
      decryptSelfieImage salt secret (.bare raw) email =
        decryptSelfieImage salt secret
          (.structured
            { data := raw, contentType := none, encryptedAt := none, version := none })
          email ∧
      decryptSelfieImage salt secret
        (.bare (encrypt salt P (tempEncryptionKey secret email))) email = .ok P := by
  refine ⟨rfl, rfl, ?_⟩
  have h := decryptBackend_encrypt_same salt P (tempEncryptionKey secret email) hP
  simp [decryptSelfieImage, parseEncryptedInfo, h, hP]

/-- Whether the comparison step produced a `MatchDecision` at all (as
opposed to propagating a thrown error). -/
def returnsDecision : Except String MatchDecision → Bool
  | .ok _ => true
  | .error _ => false

/-- Claim C6: the threshold boundary is inclusive — comparing a vector
with itself yields distance `0` and `isMatch = true` for every threshold
`≥ 0`, and whenever the Euclidean distance of two equal-length vectors
equals the threshold exactly, the decision is `isMatch = true`
(decision rule `distance ≤ threshold`).  `sq` models the runtime's
`Math.sqrt`; only `sq 0 = 0` is assumed. -/
theorem claim_C6_threshold_inclusive (sq : ℚ → ℚ) (hsq : sq 0 = 0)
    (v : List ℚ) (t : ℚ) (ht : 0 ≤ t)
    (a b : List ℚ) (hlen : a.length = b.length)
    (hdist : euclideanDistance sq a b = .ok t) :
    compareDescriptors sq v v t = .ok ⟨0, t, true⟩ ∧
      compareDescriptors sq a b t = .ok ⟨t, t, true⟩ := by
  have _hl := hlen
  constructor
  · have h0 : euclideanDistance sq v v = .ok 0 := by
      simp [euclideanDistance, sumSqDiff_self, hsq]
    have hnot : ¬ (0 : ℚ) > t := not_lt.mpr ht
    simp [compareDescriptors, h0, hnot]
  · have hnot : ¬ t > t := lt_irrefl t
    simp [compareDescriptors, hdist, hnot]

theorem claim_C6_threshold_inclusive_witness :
    (fun _ : ℚ => (0 : ℚ)) 0 = 0 ∧ (0 : ℚ) ≤ 0 ∧
      ([3] : List ℚ).length = ([3] : List ℚ).length ∧
      euclideanDistance (fun _ => 0) [3] [3] = .ok 0 ∧
      (compareDescriptors (fun _ => 0) [1, 2] [1, 2] 0 = .ok ⟨0, 0, true⟩ ∧
        compareDescriptors (fun _ => 0) [3] [3] 0 = .ok ⟨0, 0, true⟩) :=
  ⟨rfl, le_refl 0, rfl, rfl,
    claim_C6_threshold_inclusive (fun _ => 0) rfl [1, 2] 0 (le_refl 0) [3] [3] rfl rfl⟩

/-- Claim C7: unequal descriptor lengths are a distinct fatal error — the
comparison propagates the `euclideanDistance` length error and never
returns a `MatchDecision` (in particular never `isMatch = false`), so the
caller can distinguish it from a face mismatch. -/
theorem claim_C7_length_mismatch_fatal (sq : ℚ → ℚ) (a b : List ℚ) (t : ℚ)
    (h : a.length ≠ b.length) :
    compareDescriptors sq a b t = .error "euclideanDistance: arr.length must be equal" ∧
      returnsDecision (compareDescriptors sq a b t) = false := by
  have he : euclideanDistance sq a b =
      .error "euclideanDistance: arr.length must be equal" := by
    simp [euclideanDistance, h]
  constructor
  · simp [compareDescriptors, he]
  · simp [compareDescriptors, he, returnsDecision]

theorem claim_C7_length_mismatch_fatal_witness :
    ([1] : List ℚ).length ≠ ([] : List ℚ).length ∧
      (compareDescriptors (fun _ => 0) [1] [] 0 =
        .error "euclideanDistance: arr.length must be equal" ∧
        returnsDecision (compareDescriptors (fun _ => 0) [1] [] 0) = false) :=
  ⟨by decide, claim_C7_length_mismatch_fatal (fun _ => 0) [1] [] 0 (by decide)⟩

/-- Claim C9: single-flight model loading — for every `n ≥ 1`, a burst of
`n` `loadModelsOnce` calls (no settlement in between, i.e. the load stays
in flight) starts exactly one underlying load operation, and every caller
awaits that same in-flight promise (promise `0`). -/
theorem claim_C9_single_flight (n : Nat) (h : 1 ≤ n) :
    (runEvents initLoaderState (List.replicate n .call)).1.startedLoads = 1 ∧
      (runEvents initLoaderState (List.replicate n .call)).2 =
        List.replicate n (some 0) := by
  obtain ⟨m, rfl⟩ : ∃ m, n = m + 1 := ⟨n - 1, by omega⟩
  have hrest := runEvents_calls_inflight
    { modelsLoaded := false, modelsLoadingPromise := some 0, nextId := 1,
      startedLoads := 1, rejected := false } 0 rfl rfl m
  constructor <;>
    simp [List.replicate_succ, runEvents, loaderStep, loadModelsOnceStep,
      initLoaderState, hrest]

theorem claim_C9_single_flight_witness :
    1 ≤ 3 ∧
      ((runEvents initLoaderState (List.replicate 3 .call)).1.startedLoads = 1 ∧
        (runEvents initLoaderState (List.replicate 3 .call)).2 =
          List.replicate 3 (some 0)) :=
  ⟨by decide, claim_C9_single_flight 3 (by decide)⟩

/-- Claim C4 counterexample: at the concrete trace `call, settleFail,
call` the failed load is cached, not discarded — after the failure the
module state has NOT returned to Unloaded (`modelsLoadingPromise` still
holds the rejected promise `0`, `startedLoads` stays `1`), and the second
call receives that same rejected promise instead of performing a fresh
load attempt. -/
theorem claim_C4_counterexample :
    (runEvents initLoaderState [.call, .settleFail, .call]).1.startedLoads = 1 ∧
      (runEvents initLoaderState [.call, .settleFail, .call]).1.modelsLoaded = false ∧
      (runEvents initLoaderState [.call, .settleFail, .call]).1.modelsLoadingPromise =
        some 0 ∧
      (runEvents initLoaderState [.call, .settleFail, .call]).1.rejected = true ∧
      (runEvents initLoaderState [.call, .settleFail, .call]).2 = [some 0, some 0] := by
  refine ⟨rfl, rfl, rfl, rfl, rfl⟩

/-- Claim C4 (amended): a failed model load IS cached as a permanent
error — after a load failure nothing resets the module state
(`modelsLoaded` stays `false`, `modelsLoadingPromise` keeps the rejected
promise), so every later `loadModelsOnce` call returns that same rejected
promise (receiving the old failure) and no fresh load attempt ever
starts. -/
theorem claim_C4_failure_cached (n : Nat) :
    (runEvents initLoaderState
        (.call :: .settleFail :: List.replicate n .call)).1.startedLoads = 1 ∧
      (runEvents initLoaderState
        (.call :: .settleFail :: List.replicate n .call)).1.modelsLoaded = false ∧
      (runEvents initLoaderState
        (.call :: .settleFail :: List.replicate n .call)).1.rejected = true ∧
      (runEvents initLoaderState
        (.call :: .settleFail :: List.replicate n .call)).2 =
        some 0 :: List.replicate n (some 0) := by
  have hrest := runEvents_calls_inflight
    { modelsLoaded := false, modelsLoadingPromise := some 0, nextId := 1,
      startedLoads := 1, rejected := true } 0 rfl rfl n
  refine ⟨?_, ?_, ?_, ?_⟩ <;>
    simp [runEvents, loaderStep, loadModelsOnceStep, initLoaderState, hrest]

theorem claim_C8_bare_ciphertext_accepted_witness :
    ("PAYLOAD" : String) ≠ "" ∧
      (parseEncryptedInfo (.bare (.plain "leg")) =
        { data := .plain "leg", contentType := none, encryptedAt := none, version := none } ∧
        decryptSelfieImage "s" "sec" (.bare (.plain "leg")) "a@b.com" =
          decryptSelfieImage "s" "sec"
            (.structured
              { data := .plain "leg", contentType := none, encryptedAt := none,
                version := none })
            "a@b.com" ∧
        decryptSelfieImage "s" "sec"
          (.bare (encrypt "s" "PAYLOAD" (tempEncryptionKey "sec" "a@b.com"))) "a@b.com" =
          .ok "PAYLOAD") :=
  ⟨by decide, claim_C8_bare_ciphertext_accepted "s" "sec" (.plain "leg") "a@b.com" "PAYLOAD"
    (by decide)⟩

end PwdManager
